import Mathlib

/-!
Shallow embedding of the DS1631 temperature-sensor driver (DS1631.cpp) and
proofs about its fixed-point temperature codec, configuration handling and
one-shot polling loop.

Modelling conventions:
- C++ `float`/`double` values are modelled by `ℚ`.  Every arithmetic step of
  the codec (`byteToFloat`, `floatToByte`) manipulates integers scaled by the
  exactly-representable constant 0.0625 = 1/16, within a range where IEEE
  single and double precision are exact, so the rational model coincides with
  the machine computation on representable inputs.
- Machine integers are `Nat`/`Int`; C++ conversions to `uint8_t`/`uint16_t`
  are explicit `% 256` / `% 65536` reductions (for signed sources, the
  mathematically equivalent `Int.emod` followed by `toNat`).
- `int(f)` (C++ float-to-int conversion) truncates toward zero: `truncQ`.
- The I2C transport and the Arduino clock are an environment: a stream of
  configuration bytes returned by successive `readConfig` calls, a stream of
  clock values returned by successive `millis()` calls, and the two raw
  temperature bytes the device hands back.  The busy-wait loops are modelled
  with explicit fuel; `none` means the fuel ran out (the real loops can spin
  forever on a stuck clock).
-/

set_option maxRecDepth 40000

namespace DS1631

/-- Raw temperature register pair held in the driver's global variables
`MSByte` and `LSByte` (both `uint8_t`). -/
structure TempRegs where
  msb : Nat
  lsb : Nat
deriving DecidableEq

/-- Model of `DS1631::byteToFloat` (DS1631.cpp lines 192-219).  The source
first overwrites the global `LSByte` with `LSByte>>4`, then, depending on the
sign bit of `MSByte`, returns `(MSByte-256) + LSByte*0.0625` or
`MSByte + LSByte*0.0625`.  The returned pair is (value, state of the globals
after the call), making the destructive update visible. -/
def byteToFloatS (s : TempRegs) : ℚ × TempRegs :=
  let ls := s.lsb >>> 4
  (if 128 ≤ s.msb then ((s.msb : ℚ) - 256) + (ls : ℚ) * 0.0625
   else (s.msb : ℚ) + (ls : ℚ) * 0.0625,
   ⟨s.msb, ls⟩)

/-- Value computed by `DS1631::byteToFloat` from fresh raw bytes. -/
def byteToFloat (ms ls : Nat) : ℚ :=
  (byteToFloatS ⟨ms, ls⟩).1

/-- Truncation toward zero, the C++ `int(f)` conversion for in-range floats. -/
def truncQ (q : ℚ) : Int :=
  if 0 ≤ q then ⌊q⌋ else ⌈q⌉

/-- C++ conversion of a (possibly negative) integer to `uint8_t`. -/
def toByte (n : Int) : Nat :=
  (n % 256).toNat

/-- C++ conversion of a (possibly negative) integer to `uint16_t`. -/
def toUInt16 (n : Int) : Nat :=
  (n % 65536).toNat

/-- Model of `DS1631::floatToByte` (DS1631.cpp lines 223-227):
`MSByte = int(f); LSByte = int((f - int(f))/0.0625); LSByte = LSByte<<4;`.
Returns the (MSByte, LSByte) pair stored into the globals. -/
def floatToByte (f : ℚ) : Nat × Nat :=
  let ms := toByte (truncQ f)
  let l0 := toByte (truncQ ((f - (truncQ f : ℚ)) / 0.0625))
  (ms, (l0 <<< 4) % 256)

/-- Model of `DS1631::readTempD` (DS1631.cpp lines 303-315) as a function of
the two raw bytes fetched by `readT()`:
`T = ((int32_t)MSByte << 8) + LSByte; if (T >= 0x8000) T = T - 0xFFFF;
T = T >> 4;` (`>>` on a negative `int32_t` is an arithmetic shift, which is
exactly `Int`'s `>>>`). -/
def readTempD (ms ls : Nat) : Int :=
  let t : Int := ((ms <<< 8) + ls : Nat)
  let t2 : Int := if 0x8000 ≤ t then t - 0xFFFF else t
  t2 >>> 4

/-- Model of `DS1631::conversionDone` (DS1631.cpp lines 319-328) as a function
of the configuration byte returned by `readConfig()`. -/
def conversionDone (b : Nat) : Bool :=
  (b ||| 127) == 255

/-- Model of `DS1631::setResolution` (DS1631.cpp lines 124-130) as a function
of the argument `res` and the configuration byte the device currently holds.
`some w` means `writeConfig w` was issued; `none` means the guard
`res >= 9 && res <= 12` failed and nothing was written (and no error was
signalled: the function returns `void` and has no other effect). -/
def setResolution (res config : Nat) : Option Nat :=
  if 9 ≤ res ∧ res ≤ 12 then some (config ||| ((res - 9) <<< 2)) else none

/-- Environment of a one-shot poll: `clock n` is the value returned by the
n-th call to `millis()` (call 0 is the `lastMillis` initialiser), `cfg n` is
the configuration byte returned by the n-th `readConfig()` inside
`conversionDone()`, and `msb`/`lsb` are the raw temperature bytes that
`readT()` stores when the poll succeeds. -/
structure Env where
  clock : Nat → Nat
  cfg : Nat → Nat
  msb : Nat
  lsb : Nat

/-- Model of the inner busy-wait of `readTempOneShot`/`readTempOneShotInt`
(DS1631.cpp lines 245-248 and 278-281):
`long elapsed = 0; while (elapsed < 50) elapsed = millis() - lastMillis;`.
`start` is `lastMillis` (which the source never updates), `i` is the index of
the next `millis()` call.  Returns the `elapsed` value at loop exit and the
next clock index, or `none` when the fuel runs out. -/
def busyWait (clock : Nat → Nat) (start : Nat) : Nat → Nat → Option (Nat × Nat)
  | 0, _ => none
  | fuel + 1, i =>
    let e := clock i - start
    if e < 50 then busyWait clock start fuel (i + 1) else some (e, i + 1)

/-- How the outer polling loop of a one-shot read exits. -/
inductive PollExit where
  | timedOut (e : Nat)
  | done (ci gi : Nat)
deriving DecidableEq

/-- Model of the outer loop shared by `readTempOneShot` (lines 242-254) and
`readTempOneShotInt` (lines 275-287): while `conversionDone()` is false,
busy-wait, then `if (elapsed > 1000) return -32768;`.  `ci`/`gi` are the next
clock/config read indices; `PollExit.timedOut e` records the `elapsed` value
observed at the timeout return, `PollExit.done ci gi` the indices at which
the loop fell through with the conversion finished. -/
def pollLoop (env : Env) (start : Nat) : Nat → Nat → Nat → Option PollExit
  | 0, _, _ => none
  | fuel + 1, ci, gi =>
    if conversionDone (env.cfg gi) then some (.done ci (gi + 1))
    else
      match busyWait env.clock start (fuel + 1) ci with
      | none => none
      | some (e, ci') =>
        if 1000 < e then some (.timedOut e)
        else pollLoop env start fuel ci' (gi + 1)

/-- Model of `DS1631::readTempOneShot` (DS1631.cpp lines 233-262).  On
timeout the source returns `-32768` as a `float`; on success it returns
`readTempF()`, i.e. the decode of the raw bytes just read.  (The trailing
`stopConversion()` only talks to the bus and does not affect the returned
value.) -/
def readTempOneShot (env : Env) (fuel : Nat) : Option ℚ :=
  match pollLoop env (env.clock 0) fuel 1 0 with
  | none => none
  | some (.timedOut _) => some (-32768)
  | some (.done _ _) => some (byteToFloat env.msb env.lsb)

/-- Arduino `word(h, l)` macro: a `uint16_t` built from two bytes. -/
def word (h l : Nat) : Nat :=
  ((h <<< 8) ||| l) % 65536

/-- Model of `DS1631::readTempOneShotInt` (DS1631.cpp lines 271-298).  The
function's return type is `uint16_t`, so the timeout path `return -32768;`
delivers the converted value `toUInt16 (-32768)`; the success path returns
`word(MSByte, LSByte)`. -/
def readTempOneShotInt (env : Env) (fuel : Nat) : Option Nat :=
  match pollLoop env (env.clock 0) fuel 1 0 with
  | none => none
  | some (.timedOut _) => some (toUInt16 (-32768))
  | some (.done _ _) => some (word env.msb env.lsb)

/-- The sequence of `elapsed` values observed at the exits of the successive
busy-waits of one poll (same control flow as `pollLoop`, recording every
busy-wait exit).  The k-th config read happens between the exits of
busy-wait k-1 and busy-wait k, so these values bracket the real times of the
configuration reads. -/
def pollTrace (env : Env) (start : Nat) : Nat → Nat → Nat → Option (List Nat)
  | 0, _, _ => none
  | fuel + 1, ci, gi =>
    if conversionDone (env.cfg gi) then some []
    else
      match busyWait env.clock start (fuel + 1) ci with
      | none => none
      | some (e, ci') =>
        if 1000 < e then some [e]
        else
          match pollTrace env start fuel ci' (gi + 1) with
          | none => none
          | some t => some (e :: t)

/-- Environment in which the conversion-done bit is never observed set and
the clock advances 60 ms between successive `millis()` calls. -/
def envNeverDone : Env :=
  ⟨fun n => 60 * n, fun _ => 0, 0, 0⟩

/-- Environment in which the very first configuration read already reports
bit 7 set (config byte 0x8C) and the device then hands back the raw bytes
0x19, 0x80. -/
def envDoneNow : Env :=
  ⟨fun n => n, fun _ => 0x8C, 0x19, 0x80⟩

/-- Environment exhibiting the skipped inter-poll wait: the clock advances
1 ms per reading after an initial 51 ms step, and the conversion-done bit
appears on the fourth configuration read. -/
def envBug : Env :=
  ⟨fun n => if n = 0 then 0 else 50 + n, fun i => if i < 3 then 0 else 255, 0, 0⟩

/-- Environment for the integer one-shot reader: conversion done at once,
raw bytes MSByte = 0x80, LSByte = 0x00. -/
def envInt : Env :=
  ⟨fun n => n, fun _ => 255, 128, 0⟩

/-- Whole-degree part selected by `byteToFloat`'s sign test, as an integer:
`MSByte - 256` when the sign bit is set, `MSByte` otherwise. -/
def decodeW (ms : Nat) : Int :=
  if 128 ≤ ms then (ms : Int) - 256 else (ms : Int)

/-! Helper lemmas. -/
lemma truncQ_intCast (n : ℤ) : truncQ (n : ℚ) = n := by
  unfold truncQ
  split <;> simp

lemma toByte_cast (n : ℤ) : ((toByte n : ℕ) : ℤ) = n % 256 :=
  Int.toNat_of_nonneg (Int.emod_nonneg n (by norm_num))

lemma byteToFloat_lb (ms ls : Nat) : -256 ≤ byteToFloat ms ls := by
  unfold byteToFloat byteToFloatS
  simp only
  split
  · have h1 : (0:ℚ) ≤ (ms:ℚ) := Nat.cast_nonneg ms
    have h2 : (0:ℚ) ≤ ((ls >>> 4 : Nat):ℚ) * 0.0625 := by positivity
    linarith
  · have h1 : (0:ℚ) ≤ (ms:ℚ) := Nat.cast_nonneg ms
    have h2 : (0:ℚ) ≤ ((ls >>> 4 : Nat):ℚ) * 0.0625 := by positivity
    linarith

lemma byteToFloat_eq (ms ls : Nat) :
    byteToFloat ms ls = ((decodeW ms * 16 + (ls >>> 4) : ℤ) : ℚ) / 16 := by
  unfold byteToFloat byteToFloatS decodeW
  by_cases h : 128 ≤ ms <;> simp [h] <;> push_cast <;> ring_nf <;> norm_num

lemma floatToByte_fst (f : ℚ) : (floatToByte f).1 = toByte (truncQ f) := rfl

lemma floatToByte_snd (f : ℚ) :
    (floatToByte f).2 = ((toByte (truncQ ((f - (truncQ f : ℚ)) / 0.0625))) <<< 4) % 256 := rfl

lemma inv_sixteenth : (0.0625 : ℚ) = 1/16 := by norm_num

/-- Claim C4 (amended): for every negative input f other than the integers in
[-128, -1], decoding the result of encoding f (floatToByte followed by
byteToFloat) yields a value different from f; encode performs no 256-offset
sign adjustment before truncating.  (The claim as frozen, quantified over all
negative f, fails: negative integers in [-128, -1] round-trip exactly, see
the counterexample.) -/
theorem roundTrip_c4_amended (f : ℚ) (hneg : f < 0)
    (hexcl : ∀ n : ℤ, -128 ≤ n → n ≤ -1 → f ≠ (n : ℚ)) :
    byteToFloat (floatToByte f).1 (floatToByte f).2 ≠ f := by
  intro h
  set ms : Nat := (floatToByte f).1 with hms
  set ls : Nat := (floatToByte f).2 with hls
  set t : ℤ := truncQ f with ht
  have htc : t = ⌈f⌉ := by
    rw [ht]
    unfold truncQ
    rw [if_neg (not_le.mpr hneg)]
  have hle : f ≤ (t : ℚ) := htc ▸ Int.le_ceil f
  have hgt : (t : ℚ) - 1 < f := by
    have h2 : (⌈f⌉ : ℚ) < f + 1 := Int.ceil_lt_add_one f
    rw [htc]
    linarith
  have ht0 : t ≤ 0 := by
    rw [htc]
    exact Int.ceil_le.mpr (by push_cast; exact hneg.le)
  obtain ⟨N, hNdef⟩ : ∃ N : ℤ, N = decodeW ms * 16 + ((ls >>> 4 : Nat) : ℤ) := ⟨_, rfl⟩
  have hfN : ((N : ℤ) : ℚ) = 16 * f := by
    have heq := byteToFloat_eq ms ls
    rw [h, ← hNdef] at heq
    field_simp at heq
    linarith
  have hf16 : f = (N : ℚ) / 16 := by
    rw [hfN]
    ring
  have hNle : N ≤ 16 * t := by
    have hc : ((N : ℤ) : ℚ) ≤ ((16 * t : ℤ) : ℚ) := by
      rw [hfN]
      push_cast
      linarith
    exact_mod_cast hc
  have hNgt : 16 * t - 16 < N := by
    have hc : ((16 * t - 16 : ℤ) : ℚ) < ((N : ℤ) : ℚ) := by
      rw [hfN]
      push_cast
      linarith
    exact_mod_cast hc
  have harg : (f - (t : ℚ)) / 0.0625 = ((N - 16 * t : ℤ) : ℚ) := by
    rw [hf16, inv_sixteenth]
    push_cast
    field_simp
  have hl1 : truncQ ((f - (t : ℚ)) / 0.0625) = N - 16 * t := by
    rw [harg, truncQ_intCast]
  have hmseq : ms = toByte t := by
    rw [hms, floatToByte_fst, ht]
  have hlseq : ls = ((toByte (N - 16 * t)) <<< 4) % 256 := by
    rw [hls, floatToByte_snd, ← ht, hl1]
  have hmsZ : (ms : ℤ) = t % 256 := by
    rw [hmseq]
    exact toByte_cast t
  have hlsnZ : ((toByte (N - 16 * t) : ℕ) : ℤ) = (N - 16 * t) % 256 := toByte_cast _
  have hlseq' : ls = ((toByte (N - 16 * t)) * 16) % 256 := by
    rw [hlseq, Nat.shiftLeft_eq]
  have hhn : ls >>> 4 = ls / 16 := by
    rw [Nat.shiftRight_eq_div_pow]
  have hNneg : N ≤ -1 := by
    have hq : ((N : ℤ) : ℚ) < 0 := by
      rw [hfN]
      linarith
    have : N < 0 := by exact_mod_cast hq
    omega
  obtain ⟨lsn, hlsndef⟩ : ∃ x : ℕ, x = toByte (N - 16 * t) := ⟨_, rfl⟩
  have hlsn : (lsn : ℤ) = (N - 16 * t) % 256 := by
    rw [hlsndef]
    exact toByte_cast _
  have hlseq2 : ls = lsn * 16 % 256 := by
    rw [hlseq', hlsndef]
  have hNx : N = decodeW ms * 16 + ((ls / 16 : ℕ) : ℤ) := by
    rw [hNdef, hhn]
    norm_num
  have hkey : N = 16 * t ∧ -128 ≤ t ∧ t ≤ -1 := by
    clear_value ms ls t
    rw [decodeW] at hNx
    by_cases hcase : 128 ≤ ms
    · rw [if_pos hcase] at hNx
      push_cast at hNx
      omega
    · rw [if_neg hcase] at hNx
      push_cast at hNx
      omega
  have hft : f = ((t : ℤ) : ℚ) := by
    rw [hf16, hkey.1]
    push_cast
    ring
  exact hexcl t hkey.2.1 hkey.2.2 hft

-- C5
/-- Claim C5: for every non-negative integral input representable in the
8-bit signed whole-degree encoding (0 ≤ f ≤ 127), floatToByte produces
MSByte = f and LSByte = 0 (zero high nibble), and byteToFloat on those bytes
returns f exactly: the round trip is the identity. -/
theorem roundTrip_c5 (n : Nat) (h : n ≤ 127) :
    floatToByte (n : ℚ) = (n, 0) ∧ byteToFloat n 0 = (n : ℚ) := by
  have ht : truncQ ((n : ℚ)) = (n : ℤ) := by
    have := truncQ_intCast (n : ℤ)
    simpa using this
  constructor
  · have e1 : (((n : ℚ)) - (truncQ (n : ℚ) : ℚ)) / 0.0625 = ((0 : ℤ) : ℚ) := by
      rw [ht]
      push_cast
      norm_num
    unfold floatToByte
    rw [e1, truncQ_intCast, ht]
    simp only [Prod.mk.injEq]
    constructor
    · unfold toByte
      omega
    · rfl
  · have hn : ¬ 128 ≤ n := by omega
    simp [byteToFloat, byteToFloatS, hn]

-- C2 helper
lemma or_eq_add (a b : Nat) (h : b < 256) : (a <<< 8) ||| b = (a <<< 8) + b := by
  apply Nat.eq_of_testBit_eq
  intro j
  have h2 : a <<< 8 + b = 2 ^ 8 * a + b := by
    rw [Nat.shiftLeft_eq]
    ring
  rw [Nat.testBit_lor, h2, Nat.testBit_mul_pow_two_add a (by omega : b < 2 ^ 8) j,
    Nat.testBit_shiftLeft]
  by_cases hj : j < 8
  · have h8 : ¬ 8 ≤ j := by omega
    simp [hj, h8]
  · have h8 : 8 ≤ j := by omega
    have hb : b.testBit j = false :=
      Nat.testBit_lt_two_pow (lt_of_lt_of_le h (Nat.pow_le_pow_right (by norm_num : 0 < 2) h8))
    simp [hj, h8, hb]

/-- Claim C2: for all raw bytes, readTempD returns the word
(MSByte << 8) | LSByte - taken as is when below 0x8000, with 0xFFFF (not
0x10000) subtracted when at or above 0x8000 - arithmetically shifted right
by 4; in particular readTempD 0x19 0x00 = 400, i.e. 25.0 deg C in 1/16 deg C
units. -/
theorem readTempD_c2 (ms ls : Nat) (hm : ms < 256) (hl : ls < 256) :
    readTempD ms ls =
      (if ((ms <<< 8) ||| ls) < 0x8000 then (((ms <<< 8) ||| ls : Nat) : Int)
       else (((ms <<< 8) ||| ls : Nat) : Int) - 0xFFFF) >>> 4 ∧
    readTempD 0x19 0x00 = 400 := by
  constructor
  · simp only [readTempD]
    rw [or_eq_add _ _ hl]
    by_cases hw : ((ms <<< 8) + ls) < 0x8000
    · have h1 : ¬ ((0x8000 : ℤ) ≤ (((ms <<< 8) + ls : Nat) : ℤ)) := by
        push_cast
        omega
      rw [if_neg h1, if_pos hw]
    · have h1 : (0x8000 : ℤ) ≤ (((ms <<< 8) + ls : Nat) : ℤ) := by
        push_cast
        omega
      rw [if_pos h1, if_neg hw]
  · decide

-- C6
/-- Claim C6: for all 256 byte values, conversionDone (computed by the
source formula (config | 127) == 255) agrees with the direct test of bit 7
of the configuration byte. -/
theorem conversionDone_c6 (b : Nat) (hb : b < 256) : conversionDone b = b.testBit 7 := by
  revert hb
  revert b
  decide

-- C7
/-- Claim C7 counterexample: with prior configuration byte 12 (resolution
bits 2-3 already 0b11), setResolution 9 writes back 12, whose bits 2-3 are 3,
not res - 9 = 0: the written resolution field is not res - 9 in general. -/
theorem setResolution_c7_cex :
    setResolution 9 12 = some 12 ∧ ¬ ((12 >>> 2) % 4 = 9 - 9) := by
  decide

/-- Claim C7 (amended): setResolution with res outside [9, 12] performs no
write and signals no error; with res in [9, 12] it writes back
config | ((res - 9) << 2), so bits 2-3 of the written byte are the bitwise
OR of the prior bits 2-3 with res - 9 (equal to res - 9 exactly when the
prior resolution bits were zero) and all other bits are unchanged.  (The
claim as frozen, that bits 2-3 always hold res - 9, fails: the source ORs
without clearing first, see the counterexample.) -/
theorem setResolution_c7_amended (res config : Nat) (hc : config < 256) :
    ((res < 9 ∨ 12 < res) → setResolution res config = none) ∧
    (9 ≤ res → res ≤ 12 →
      setResolution res config = some (config ||| ((res - 9) <<< 2)) ∧
      ∀ w, setResolution res config = some w →
        (w >>> 2) % 4 = ((config >>> 2) % 4) ||| (res - 9) ∧
        w % 4 = config % 4 ∧
        w >>> 4 = config >>> 4) := by
  constructor
  · intro hout
    unfold setResolution
    rw [if_neg (by omega : ¬ (9 ≤ res ∧ res ≤ 12))]
  · intro h9 h12
    have hw : setResolution res config = some (config ||| ((res - 9) <<< 2)) := by
      unfold setResolution
      rw [if_pos ⟨h9, h12⟩]
    refine ⟨hw, ?_⟩
    intro w hww
    rw [hw] at hww
    injection hww with hww
    subst hww
    clear hw
    interval_cases res <;> (revert hc; revert config; decide)

-- C1
/-- Claim C1 counterexample: at MSByte = 0 and LSByte = 0 the decode
returns exactly 0, which is not positive, so the frozen claim's assertion
that the result is positive for all MSByte in [0, 127] fails. -/
theorem byteToFloat_c1_cex : byteToFloat 0 0 = 0 ∧ ¬ (0 < byteToFloat 0 0) := by
  have h : byteToFloat 0 0 = 0 := by norm_num [byteToFloat, byteToFloatS]
  exact ⟨h, by rw [h]; exact lt_irrefl 0⟩

/-- Claim C1 (amended): for every MSByte and LSByte in [0, 255],
byteToFloat returns W + (LSByte >> 4) * 0.0625 where W = MSByte - 256 when
MSByte >= 128 and W = MSByte otherwise; the fraction is always added, so
MSByte = 0xFF with LSByte high nibble 8 decodes to -0.5 (not -1.5); and for
MSByte in [0, 127] the result equals MSByte + highnibble * 0.0625 and is
non-negative (not strictly positive: it is 0 at MSByte = LSByte = 0). -/
theorem byteToFloat_c1_amended (ms ls : Nat) (hm : ms < 256) (hl : ls < 256) :
    byteToFloat ms ls =
      (if 128 ≤ ms then (ms : ℚ) - 256 else (ms : ℚ)) + ((ls >>> 4 : Nat) : ℚ) * 0.0625 ∧
    (ms ≤ 127 →
      byteToFloat ms ls = (ms : ℚ) + ((ls >>> 4 : Nat) : ℚ) * 0.0625 ∧
      0 ≤ byteToFloat ms ls) ∧
    byteToFloat 255 128 = -1/2 := by
  refine ⟨?_, ?_, ?_⟩
  · unfold byteToFloat byteToFloatS
    by_cases h : 128 ≤ ms <;> simp [h]
  · intro h127
    have hn : ¬ 128 ≤ ms := by omega
    have he : byteToFloat ms ls = (ms : ℚ) + ((ls >>> 4 : Nat) : ℚ) * 0.0625 := by
      simp [byteToFloat, byteToFloatS, hn]
    refine ⟨he, ?_⟩
    rw [he]
    positivity
  · have h : (128 : Nat) >>> 4 = 8 := rfl
    simp [byteToFloat, byteToFloatS, h]
    norm_num

-- C9
/-- Claim C9: byteToFloat destructively overwrites the stored LSByte with
LSByte >> 4 before computing its result, so when the original high nibble is
non-zero a second call without an intervening read returns a different value
than the first, and the raw-word invariant (low nibble zero) is broken by
decoding itself. -/
theorem byteToFloatS_c9_frame (s : TempRegs) (hl : s.lsb < 256) (hinv : s.lsb % 16 = 0)
    (hn : s.lsb >>> 4 ≠ 0) :
    (byteToFloatS s).2 = ⟨s.msb, s.lsb >>> 4⟩ ∧
    (byteToFloatS (byteToFloatS s).2).1 ≠ (byteToFloatS s).1 ∧
    (byteToFloatS s).2.lsb % 16 ≠ 0 := by
  have h2 : (byteToFloatS s).2 = ⟨s.msb, s.lsb >>> 4⟩ := rfl
  have hk : s.lsb >>> 4 < 16 := by
    rw [Nat.shiftRight_eq_div_pow]
    omega
  have hz : (s.lsb >>> 4) >>> 4 = 0 := by
    rw [Nat.shiftRight_eq_div_pow (s.lsb >>> 4) 4]
    omega
  have h1 : (1 : ℚ) ≤ ((s.lsb >>> 4 : Nat) : ℚ) := by
    exact_mod_cast Nat.one_le_iff_ne_zero.mpr hn
  refine ⟨h2, ?_, ?_⟩
  · rw [h2]
    unfold byteToFloatS
    simp only [hz, inv_sixteenth]
    by_cases hcase : 128 ≤ s.msb <;> simp [hcase] <;> intro heq <;> exact hn heq
  · rw [h2]
    simp only
    omega

-- poll loop lemmas
lemma pollLoop_timedOut_gt (env : Env) (start : Nat) :
    ∀ fuel ci gi e, pollLoop env start fuel ci gi = some (PollExit.timedOut e) → 1000 < e := by
  intro fuel
  induction fuel with
  | zero =>
    intro ci gi e h
    simp [pollLoop] at h
  | succ n ih =>
    intro ci gi e h
    rw [pollLoop] at h
    by_cases hc : conversionDone (env.cfg gi)
    · simp [hc] at h
    · simp only [hc, Bool.false_eq_true, if_false] at h
      cases hbw : busyWait env.clock start (n + 1) ci with
      | none =>
        rw [hbw] at h
        simp at h
      | some p =>
        rw [hbw] at h
        obtain ⟨e2, ci2⟩ := p
        dsimp only at h
        by_cases he : 1000 < e2
        · rw [if_pos he] at h
          simp at h
          omega
        · rw [if_neg he] at h
          exact ih ci2 (gi + 1) e h

lemma pollLoop_done_cfg (env : Env) (start : Nat) :
    ∀ fuel ci gi ci2 gi2, pollLoop env start fuel ci gi = some (PollExit.done ci2 gi2) →
      ∃ g, conversionDone (env.cfg g) = true := by
  intro fuel
  induction fuel with
  | zero =>
    intro ci gi ci2 gi2 h
    simp [pollLoop] at h
  | succ n ih =>
    intro ci gi ci2 gi2 h
    rw [pollLoop] at h
    by_cases hc : conversionDone (env.cfg gi)
    · exact ⟨gi, hc⟩
    · simp only [hc, Bool.false_eq_true, if_false] at h
      cases hbw : busyWait env.clock start (n + 1) ci with
      | none =>
        rw [hbw] at h
        simp at h
      | some p =>
        rw [hbw] at h
        obtain ⟨e2, ci3⟩ := p
        dsimp only at h
        by_cases he : 1000 < e2
        · rw [if_pos he] at h
          simp at h
        · rw [if_neg he] at h
          exact ih ci3 (gi + 1) ci2 gi2 h

lemma conversionDone_testBit {b : Nat} (h : conversionDone b = true) : b.testBit 7 = true := by
  unfold conversionDone at h
  have h255 : b ||| 127 = 255 := by simpa using h
  have h7 := congrArg (fun x => Nat.testBit x 7) h255
  simpa [Nat.testBit_lor, show Nat.testBit 127 7 = false from rfl,
    show Nat.testBit 255 7 = true from rfl] using h7

-- C3
/-- Claim C3: if bit 7 of the configuration byte is never observed set,
readTempOneShot can only return the sentinel -32768, and only via a timeout
exit whose observed elapsed time exceeds 1000 ms - never earlier; whenever
the poll loop exits because bit 7 was observed set, readTempOneShot returns
the decoded temperature, which is never equal to the sentinel. -/
theorem readTempOneShot_c3 (env : Env) (fuel : Nat) :
    ((∀ i, (env.cfg i).testBit 7 = false) →
      ∀ r, readTempOneShot env fuel = some r → r = -32768) ∧
    (∀ e, pollLoop env (env.clock 0) fuel 1 0 = some (PollExit.timedOut e) → 1000 < e) ∧
    (∀ ci gi, pollLoop env (env.clock 0) fuel 1 0 = some (PollExit.done ci gi) →
      readTempOneShot env fuel = some (byteToFloat env.msb env.lsb) ∧
      byteToFloat env.msb env.lsb ≠ -32768) := by
  refine ⟨?_, ?_, ?_⟩
  · intro hnever r hr
    unfold readTempOneShot at hr
    cases hp : pollLoop env (env.clock 0) fuel 1 0 with
    | none =>
      rw [hp] at hr
      simp at hr
    | some ex =>
      cases ex with
      | timedOut e =>
        rw [hp] at hr
        simp at hr
        exact hr.symm
      | done ci gi =>
        obtain ⟨g, hg⟩ := pollLoop_done_cfg env (env.clock 0) fuel 1 0 ci gi hp
        have hbit := conversionDone_testBit hg
        rw [hnever g] at hbit
        simp at hbit
  · exact fun e => pollLoop_timedOut_gt env (env.clock 0) fuel 1 0 e
  · intro ci gi hp
    constructor
    · unfold readTempOneShot
      rw [hp]
    · have hlb : -256 ≤ byteToFloat env.msb env.lsb := byteToFloat_lb _ _
      intro hcontra
      rw [hcontra] at hlb
      norm_num at hlb

-- C8: in envBug the busy-waits after the first one exit immediately
/-- Claim C8 refutation (code bug): with the clock advancing 1 ms per
reading after an initial 51 ms step and the conversion never done for three
config reads, the three busy-waits exit at elapsed 51, 52 and 53 ms: because
lastMillis is never updated, the second and third waits return immediately,
so consecutive configuration reads are bracketed within a 2 ms window
(53 - 51 < 50) instead of being at least 50 ms apart. -/
theorem pollGap_c8_bug :
    pollTrace envBug 0 10 1 0 = some [51, 52, 53] ∧ 53 - 51 < 50 := by
  constructor
  · decide
  · decide

-- C10
/-- Claim C10: readTempOneShotInt has return type uint16_t, so its timeout
path return -32768 delivers 32768 = 0x8000 - exactly the value of a
legitimate successful reading with raw bytes MSByte = 0x80, LSByte = 0x00:
with those bytes every result of the function is 32768, timeout or not. -/
theorem readTempOneShotInt_c10 (env : Env) (fuel : Nat)
    (hm : env.msb = 128) (hl : env.lsb = 0) :
    toUInt16 (-32768) = 32768 ∧
    word 128 0 = 32768 ∧
    ∀ r, readTempOneShotInt env fuel = some r → r = 32768 := by
  refine ⟨by decide, by decide, ?_⟩
  intro r hr
  unfold readTempOneShotInt at hr
  cases hp : pollLoop env (env.clock 0) fuel 1 0 with
  | none =>
    rw [hp] at hr
    simp at hr
  | some ex =>
    cases ex with
    | timedOut e =>
      rw [hp] at hr
      simp at hr
      have : toUInt16 (-32768) = 32768 := by decide
      omega
    | done ci gi =>
      rw [hp] at hr
      simp at hr
      rw [hm, hl] at hr
      have : word 128 0 = 32768 := by decide
      omega

/-- Claim C4 counterexample: the negative input -1 encodes to
MSByte = 0xFF, LSByte = 0x00 and decodes back to exactly -1, so the frozen
claim that every negative input fails to round-trip is false. -/
theorem roundTrip_c4_cex :
    byteToFloat (floatToByte (-1)).1 (floatToByte (-1)).2 = -1 ∧ ((-1 : ℚ) < 0) := by
  have h1 : truncQ (-1 : ℚ) = -1 := by
    have := truncQ_intCast (-1)
    simpa using this
  have e1 : ((-1 : ℚ) - (truncQ (-1 : ℚ) : ℚ)) / 0.0625 = ((0 : ℤ) : ℚ) := by
    rw [h1]
    norm_num
  have h2 : floatToByte (-1) = (255, 0) := by
    unfold floatToByte
    rw [e1, truncQ_intCast, h1]
    rfl
  rw [h2]
  constructor
  · show byteToFloat 255 0 = -1
    simp [byteToFloat, byteToFloatS]
    norm_num
  · norm_num

-- witnesses
/-- Witness for C1 at MSByte = 255, LSByte = 128. -/
theorem byteToFloat_c1_amended_w : byteToFloat 255 128 = -1/2 :=
  (byteToFloat_c1_amended 255 128 (by norm_num) (by norm_num)).2.2

/-- Witness for C2 at the raw bytes 0x19, 0x00. -/
theorem readTempD_c2_w : readTempD 0x19 0x00 = 400 :=
  (readTempD_c2 0x19 0x00 (by norm_num) (by norm_num)).2

/-- Witness for C3: a never-done environment times out at 1020 ms with the sentinel, and an immediately-done environment returns the decoded bytes. -/
theorem readTempOneShot_c3_w :
    ((-32768 : ℚ) = -32768) ∧ (1000 < 1020) ∧
    readTempOneShot envDoneNow 5 = some (byteToFloat 0x19 0x80) := by
  refine ⟨?_, ?_, ?_⟩
  · exact (readTempOneShot_c3 envNeverDone 30).1 (fun i => by simp [envNeverDone]) (-32768) rfl
  · exact (readTempOneShot_c3 envNeverDone 30).2.1 1020 rfl
  · exact ((readTempOneShot_c3 envDoneNow 5).2.2 1 1 rfl).1

/-- Witness for C4 at the negative non-integral input -1/2. -/
theorem roundTrip_c4_amended_w :
    byteToFloat (floatToByte (-1/2)).1 (floatToByte (-1/2)).2 ≠ -1/2 := by
  apply roundTrip_c4_amended (-1/2) (by norm_num)
  intro n h1 h2 heq
  have hn1 : (n : ℚ) ≤ -1 := by exact_mod_cast h2
  rw [← heq] at hn1
  linarith

/-- Witness for C5 at the input 25. -/
theorem roundTrip_c5_w :
    floatToByte ((25 : Nat) : ℚ) = (25, 0) ∧ byteToFloat 25 0 = ((25 : Nat) : ℚ) :=
  roundTrip_c5 25 (by norm_num)

/-- Witness for C6 at the configuration byte 200. -/
theorem conversionDone_c6_w : conversionDone 200 = (200 : Nat).testBit 7 :=
  conversionDone_c6 200 (by norm_num)

/-- Witness for C7 at res = 10 over a zero configuration byte. -/
theorem setResolution_c7_amended_w :
    setResolution 10 0 = some (0 ||| ((10 - 9) <<< 2)) :=
  ((setResolution_c7_amended 10 0 (by norm_num)).2 (by norm_num) (by norm_num)).1

/-- Witness for C9 at the register state MSByte = 0, LSByte = 0x80. -/
theorem byteToFloatS_c9_frame_w :
    (byteToFloatS ⟨0, 128⟩).2 = (⟨0, 8⟩ : TempRegs) ∧
    (byteToFloatS (byteToFloatS ⟨0, 128⟩).2).1 ≠ (byteToFloatS ⟨0, 128⟩).1 ∧
    (byteToFloatS ⟨0, 128⟩).2.lsb % 16 ≠ 0 :=
  byteToFloatS_c9_frame ⟨0, 128⟩ (by norm_num) (by norm_num) (by decide)

/-- Witness for C10 in the immediately-done environment with raw bytes 0x80, 0x00. -/
theorem readTempOneShotInt_c10_w :
    readTempOneShotInt envInt 5 = some 32768 ∧ toUInt16 (-32768) = 32768 := by
  have heq : word envInt.msb envInt.lsb = 32768 :=
    (readTempOneShotInt_c10 envInt 5 rfl rfl).2.2 (word envInt.msb envInt.lsb) rfl
  constructor
  · show readTempOneShotInt envInt 5 = some 32768
    rw [← heq]
    rfl
  · exact (readTempOneShotInt_c10 envInt 5 rfl rfl).1

end DS1631
